import Mathlib

/-!
Verification of the EzYOLO annotation tool against its specification.

The development shallowly embeds the relevant parts of the source:

* the geometry kernel of `src/gui/pages/annotate_page.py`
  (the two ray-casting point-in-polygon routines, bbox containment);
* the annotation data model and the narrow CRUD contract of
  `src/models/database.py`;
* the batch region processor, the class-deletion cascade, the viewport
  zoom and the resize state machine of `annotate_page.py`;
* the YOLO export encoder of `annotate_page.py` and the importers of
  `src/core/annotation_importer.py`.

Python floats are modelled as rationals (`ℚ`); Python's truncating
`int(...)` cast is `pytrunc`; the `"%.6f"` formatting of the YOLO
exporter is modelled as round-half-up to six decimal places.
-/

/-- Coordinate pair stored as a dict with keys x and y in the source
(polygon vertices of an Annotation's data payload). -/
structure Pt where
  x : ℚ
  y : ℚ
deriving DecidableEq, Repr

/-- One iteration of the ray-casting loop of
`AnnotationCanvas.point_in_polygon` (annotate_page.py lines 869-884),
which works over coordinate tuples.  The state carries the Python
variables `inside` and `xinters`; `xinters` is a plain local that keeps
its previous value when the guard `p1y != p2y` fails, exactly as in the
source. -/
def pipStepC (x y : ℚ) (st : Bool × ℚ) (p1 p2 : ℚ × ℚ) : Bool × ℚ :=
  if y > min p1.2 p2.2 ∧ y ≤ max p1.2 p2.2 ∧ x ≤ max p1.1 p2.1 then
    let xinters := if p1.2 ≠ p2.2 then (y - p1.2) * (p2.1 - p1.1) / (p2.2 - p1.2) + p1.1 else st.2
    if p1.1 = p2.1 ∨ x ≤ xinters then (!st.1, xinters) else (st.1, xinters)
  else st

/-- One iteration of the ray-casting loop of
`AnnotatePage.point_in_polygon` (annotate_page.py lines 1834-1849),
which works over dicts with keys x and y. -/
def pipStepB (x y : ℚ) (st : Bool × ℚ) (p1 p2 : Pt) : Bool × ℚ :=
  if y > min p1.y p2.y ∧ y ≤ max p1.y p2.y ∧ x ≤ max p1.x p2.x then
    let xinters := if p1.y ≠ p2.y then (y - p1.y) * (p2.x - p1.x) / (p2.y - p1.y) + p1.x else st.2
    if p1.x = p2.x ∨ x ≤ xinters then (!st.1, xinters) else (st.1, xinters)
  else st

/-- The edges visited by the Python loop
`p1 = polygon[0]; for i in range(1, n + 1): p2 = polygon[i % n]; ...`:
the pairs (v0,v1), (v1,v2), ..., (v(n-1), v0). -/
def edgeList {α : Type} (l : List α) : List (α × α) :=
  match l with
  | [] => []
  | p0 :: rest => List.zip (p0 :: rest) (rest ++ [p0])

/-- `AnnotationCanvas.point_in_polygon` over coordinate tuples.  The
uninitialised Python local `xinters` is modelled as starting at 0; the
loop provably never reads it before writing it, so the value is
irrelevant, and it is in any case identical in both embeddings. -/
def point_in_polygon_canvas (x y : ℚ) (polygon : List (ℚ × ℚ)) : Bool :=
  (List.foldl (fun st e => pipStepC x y st e.1 e.2) (false, 0) (edgeList polygon)).1

/-- `AnnotatePage.point_in_polygon` over dicts with keys x and y. -/
def point_in_polygon (x y : ℚ) (polygon : List Pt) : Bool :=
  (List.foldl (fun st e => pipStepB x y st e.1 e.2) (false, 0) (edgeList polygon)).1

/-- Projection of a dict-style vertex to a tuple-style vertex. -/
def Pt.toPair (p : Pt) : ℚ × ℚ := (p.x, p.y)

lemma pipStepC_toPair (x y : ℚ) (st : Bool × ℚ) (p1 p2 : Pt) :
    pipStepC x y st p1.toPair p2.toPair = pipStepB x y st p1 p2 := rfl

lemma foldl_pipStep_toPair (x y : ℚ) :
    ∀ (es : List (Pt × Pt)) (st : Bool × ℚ),
      List.foldl (fun st e => pipStepC x y st e.1 e.2) st
          (es.map fun e => (e.1.toPair, e.2.toPair)) =
        List.foldl (fun st e => pipStepB x y st e.1 e.2) st es := by
  intro es
  induction es with
  | nil => intro st; rfl
  | cons e rest ih =>
      intro st
      simp only [List.map_cons, List.foldl_cons, pipStepC_toPair]
      exact ih _

lemma edgeList_map {α β : Type} (f : α → β) (l : List α) :
    edgeList (l.map f) = (edgeList l).map fun e => (f e.1, f e.2) := by
  cases l with
  | nil => rfl
  | cons p0 rest =>
      simp only [edgeList, List.map_cons]
      rw [show List.map f rest ++ [f p0] = List.map f (rest ++ [p0]) by simp,
        ← List.map_cons f p0 rest, List.zip_map]
      simp [Prod.map]

/-- C10: the canvas hit-test ray caster (over tuples) and the batch
processor ray caster (over dicts) return the same boolean on the same
coordinates, for every polygon with at least one vertex. -/
theorem point_in_polygon_canvas_eq_batch (x y : ℚ) (polygon : List Pt)
    (hne : 0 < polygon.length) :
    point_in_polygon_canvas x y (polygon.map Pt.toPair) = point_in_polygon x y polygon := by
  unfold point_in_polygon_canvas point_in_polygon
  rw [edgeList_map, foldl_pipStep_toPair]

/-- Witness for C10 on the concrete triangle (0,0),(10,0),(0,10) and
query point (2,2). -/
theorem point_in_polygon_canvas_eq_batch_witness :
    point_in_polygon_canvas 2 2 ([⟨0,0⟩, ⟨10,0⟩, ⟨0,10⟩].map Pt.toPair) =
      point_in_polygon 2 2 [⟨0,0⟩, ⟨10,0⟩, ⟨0,10⟩] :=
  point_in_polygon_canvas_eq_batch 2 2 [⟨0,0⟩, ⟨10,0⟩, ⟨0,10⟩] (by decide)

/-- Geometry payload of an Annotation record (the parsed `data` JSON
column); annotation types other than bbox and polygon take no part in
the hit tests (`is_point_in_annotation_data` returns False for them). -/
inductive AnnData where
  | bbox (x y width height : ℚ)
  | polygon (points : List Pt)
  | otherKind
deriving DecidableEq

/-- `AnnotatePage.is_point_in_annotation_data` (annotate_page.py lines
1818-1832): bbox containment, or even-odd ray casting for polygons with
at least 3 vertices. -/
def is_point_in_annotation_data (px py : ℚ) (data : AnnData) : Bool :=
  match data with
  | .bbox x y width height => x ≤ px ∧ px ≤ x + width ∧ y ≤ py ∧ py ≤ y + height
  | .polygon points => if points.length < 3 then false else point_in_polygon px py points
  | .otherKind => false

/-- An Annotation row: store-assigned id, class id, geometry payload. -/
structure Ann where
  id : ℕ
  class_id : ℕ
  data : AnnData
deriving DecidableEq

/-- The status column of an Image record. -/
inductive ImgStatus where
  | pending
  | annotated
deriving DecidableEq

/-- An Image record together with its Annotation rows. -/
structure DbImage where
  id : ℕ
  filename : String
  status : ImgStatus
  anns : List Ann
deriving DecidableEq

/-- `Database.add_annotation` (database.py lines 359-392): inserts the
row and unconditionally sets the image status to annotated in the same
transaction. -/
def db_add_ann (img : DbImage) (a : Ann) : DbImage :=
  { img with anns := img.anns ++ [a], status := .annotated }

/-- `Database.delete_annotation` (database.py lines 446-451): removes
the row with the given id; the image status is not touched. -/
def db_delete_ann (img : DbImage) (aid : ℕ) : DbImage :=
  { img with anns := img.anns.filter fun a => a.id ≠ aid }

/-- `Database.delete_image_annotations` (database.py lines 305-313):
removes every row of the image; the image status is not touched. -/
def db_delete_image_anns (img : DbImage) : DbImage :=
  { img with anns := [] }

/-- `AnnotatePage.on_annotation_deleted` (annotate_page.py lines
2266-2287): deletes the row, then reverts the image status to pending
exactly when no annotations remain. -/
def on_ann_deleted (img : DbImage) (aid : ℕ) : DbImage :=
  let img2 := db_delete_ann img aid
  if img2.anns = [] then { img2 with status := .pending } else img2

/-- The operation selected in the batch process dialog. -/
inductive BatchOp where
  | delete
  | relabel
deriving DecidableEq

/-- The config dict passed to `AnnotatePage.execute_batch_process`:
image-space points, inclusive image index range, operation, and the
class id sets of the two operations. -/
structure BatchConfig where
  points : List (ℚ × ℚ)
  start_idx : ℕ
  end_idx : ℕ
  operation : BatchOp
  target_classes : List ℕ
  source_classes : List ℕ
  target_class : ℕ

/-- Effect of one iteration of the inner annotation loop of
`execute_batch_process` (annotate_page.py lines 1773-1798) on a single
annotation row: `covers_point` is the any-point containment loop; a
covered annotation is deleted when its class is targeted (Delete) or
reassigned when its class is a source (Relabel). -/
def batchProcessOne (cfg : BatchConfig) (a : Ann) : List Ann :=
  if cfg.points.any fun p => is_point_in_annotation_data p.1 p.2 a.data then
    match cfg.operation with
    | .delete => if a.class_id ∈ cfg.target_classes then [] else [a]
    | .relabel =>
        if a.class_id ∈ cfg.source_classes then [{ a with class_id := cfg.target_class }] else [a]
  else [a]

/-- Net effect of `execute_batch_process` on one image in range: each
of its annotation rows is deleted, updated or kept; the status column
is never written by this code path. -/
def batchProcessImage (cfg : BatchConfig) (img : DbImage) : DbImage :=
  { img with anns := img.anns.foldl (fun acc a => acc ++ batchProcessOne cfg a) [] }

/-- Traversal of the project image list: the Python slice
`self.images[start_idx:end_idx+1]` processes exactly the positions
`start_idx ≤ i ≤ end_idx` and leaves the rest untouched. -/
def batchGo (cfg : BatchConfig) : ℕ → List DbImage → List DbImage
  | _, [] => []
  | i, img :: rest =>
      (if cfg.start_idx ≤ i ∧ i ≤ cfg.end_idx then batchProcessImage cfg img else img) ::
        batchGo cfg (i + 1) rest

/-- `AnnotatePage.execute_batch_process` (annotate_page.py lines
1735-1816), restricted to its effect on the annotation store (progress
reporting and the cancel button are UI concerns outside the model). -/
def execute_batch_process (cfg : BatchConfig) (images : List DbImage) : List DbImage :=
  batchGo cfg 0 images

lemma foldl_append_eq_flatMap {α β : Type} (f : α → List β) :
    ∀ (l : List α) (acc : List β),
      l.foldl (fun acc a => acc ++ f a) acc = acc ++ l.flatMap f := by
  intro l
  induction l with
  | nil => intro acc; simp
  | cons a rest ih => intro acc; simp [List.foldl_cons, ih]

lemma flatMap_if_empty {α : Type} (P : α → Prop) [DecidablePred P] (l : List α) :
    (l.flatMap fun a => if P a then [] else [a]) = l.filter fun a => ¬ P a := by
  induction l with
  | nil => rfl
  | cons a rest ih =>
      by_cases h : P a <;> simp [List.filter_cons, h, ih]

lemma flatMap_pure_eq_map {α β : Type} (g : α → β) (l : List α) :
    (l.flatMap fun a => [g a]) = l.map g := by
  induction l with
  | nil => rfl
  | cons a rest ih => simp [ih]

lemma batchGo_getElem? (cfg : BatchConfig) :
    ∀ (l : List DbImage) (n i : ℕ),
      (batchGo cfg n l)[i]? = (l[i]?).map fun img =>
        if cfg.start_idx ≤ n + i ∧ n + i ≤ cfg.end_idx then batchProcessImage cfg img else img := by
  intro l
  induction l with
  | nil => intro n i; simp [batchGo]
  | cons img rest ih =>
      intro n i
      cases i with
      | zero => simp [batchGo]
      | succ j =>
          simp only [batchGo, List.getElem?_cons_succ]
          rw [ih (n + 1) j]
          have h : n + 1 + j = n + (j + 1) := by omega
          rw [h]

lemma batchProcessOne_delete (cfg : BatchConfig) (hop : cfg.operation = .delete) (a : Ann) :
    batchProcessOne cfg a =
      if (∃ p ∈ cfg.points, is_point_in_annotation_data p.1 p.2 a.data = true) ∧
          a.class_id ∈ cfg.target_classes then [] else [a] := by
  have h1 : batchProcessOne cfg a =
      if (cfg.points.any fun p => is_point_in_annotation_data p.1 p.2 a.data) then
        (if a.class_id ∈ cfg.target_classes then [] else [a]) else [a] := by
    simp only [batchProcessOne, hop]
  rw [h1]
  by_cases hc : (cfg.points.any fun p => is_point_in_annotation_data p.1 p.2 a.data) = true
  · rw [if_pos hc]
    by_cases hm : a.class_id ∈ cfg.target_classes
    · rw [if_pos hm,
        if_pos (show (∃ p ∈ cfg.points, is_point_in_annotation_data p.1 p.2 a.data = true) ∧
          a.class_id ∈ cfg.target_classes from ⟨List.any_eq_true.mp hc, hm⟩)]
    · rw [if_neg hm, if_neg fun h => hm h.2]
  · rw [if_neg hc, if_neg fun h => hc (List.any_eq_true.mpr h.1)]

lemma batchProcessOne_relabel (cfg : BatchConfig) (hop : cfg.operation = .relabel) (a : Ann) :
    batchProcessOne cfg a =
      [if (∃ p ∈ cfg.points, is_point_in_annotation_data p.1 p.2 a.data = true) ∧
          a.class_id ∈ cfg.source_classes then { a with class_id := cfg.target_class } else a] := by
  have h1 : batchProcessOne cfg a =
      if (cfg.points.any fun p => is_point_in_annotation_data p.1 p.2 a.data) then
        (if a.class_id ∈ cfg.source_classes then [{ a with class_id := cfg.target_class }] else [a])
      else [a] := by
    simp only [batchProcessOne, hop]
  rw [h1]
  by_cases hc : (cfg.points.any fun p => is_point_in_annotation_data p.1 p.2 a.data) = true
  · rw [if_pos hc]
    by_cases hm : a.class_id ∈ cfg.source_classes
    · rw [if_pos hm,
        if_pos (show (∃ p ∈ cfg.points, is_point_in_annotation_data p.1 p.2 a.data = true) ∧
          a.class_id ∈ cfg.source_classes from ⟨List.any_eq_true.mp hc, hm⟩)]
    · rw [if_neg hm, if_neg fun h => hm h.2]
  · rw [if_neg hc, if_neg fun h => hc (List.any_eq_true.mpr h.1)]

/-- C6: the batch region processor touches exactly the images in the
inclusive index range; inside the range an annotation is affected
exactly when some selected point lies inside its geometry (bbox
containment or even-odd polygon test), deleted only when its class is
targeted, relabelled only when its class is a source, and every
uncovered annotation is kept verbatim; the point (15,15) is covered by
bbox x=10 y=10 w=20 h=20 while (100,100) is not. -/
theorem execute_batch_process_spec (cfg : BatchConfig) (images : List DbImage) :
    (∀ i : ℕ, i < cfg.start_idx ∨ cfg.end_idx < i →
        (execute_batch_process cfg images)[i]? = images[i]?) ∧
    (∀ i img, cfg.start_idx ≤ i → i ≤ cfg.end_idx → images[i]? = some img →
        ∃ img', (execute_batch_process cfg images)[i]? = some img' ∧
          img'.id = img.id ∧ img'.status = img.status ∧
          (cfg.operation = .delete →
            img'.anns = img.anns.filter fun a =>
              ¬((∃ p ∈ cfg.points, is_point_in_annotation_data p.1 p.2 a.data = true) ∧
                a.class_id ∈ cfg.target_classes)) ∧
          (cfg.operation = .relabel →
            img'.anns = img.anns.map fun a =>
              if (∃ p ∈ cfg.points, is_point_in_annotation_data p.1 p.2 a.data = true) ∧
                  a.class_id ∈ cfg.source_classes
              then { a with class_id := cfg.target_class } else a)) ∧
    is_point_in_annotation_data 15 15 (.bbox 10 10 20 20) = true ∧
    is_point_in_annotation_data 100 100 (.bbox 10 10 20 20) = false := by
  refine ⟨?_, ?_, ?_, ?_⟩
  · intro i hi
    rw [execute_batch_process, batchGo_getElem?]
    rcases h : images[i]? with _ | img
    · rfl
    · simp only [Option.map_some']
      rw [if_neg (by omega)]
  · intro i img h1 h2 h3
    refine ⟨batchProcessImage cfg img, ?_, rfl, rfl, ?_, ?_⟩
    · rw [execute_batch_process, batchGo_getElem?, h3]
      simp only [Option.map_some']
      rw [if_pos (by omega)]
    · intro hop
      show (img.anns.foldl (fun acc a => acc ++ batchProcessOne cfg a) []) = _
      rw [foldl_append_eq_flatMap, List.nil_append,
        List.flatMap_congr fun a _ => batchProcessOne_delete cfg hop a,
        flatMap_if_empty]
    · intro hop
      show (img.anns.foldl (fun acc a => acc ++ batchProcessOne cfg a) []) = _
      rw [foldl_append_eq_flatMap, List.nil_append,
        List.flatMap_congr fun a _ => batchProcessOne_relabel cfg hop a,
        flatMap_pure_eq_map]
  · show decide _ = true
    rw [decide_eq_true_eq]
    norm_num
  · show decide _ = false
    rw [decide_eq_false_iff_not]
    norm_num

/-- Witness for C6: one image holding one bbox annotation of class 0,
one selected point (15,15), delete operation over the range [0,0]. -/
theorem execute_batch_process_spec_witness :
    ((execute_batch_process ⟨[(15, 15)], 0, 0, .delete, [0], [], 0⟩
        [⟨1, "a.jpg", .annotated, [⟨1, 0, .bbox 10 10 20 20⟩]⟩])[1]? =
      ([⟨1, "a.jpg", .annotated, [⟨1, 0, .bbox 10 10 20 20⟩]⟩] : List DbImage)[1]?) ∧
    (∃ img', (execute_batch_process ⟨[(15, 15)], 0, 0, .delete, [0], [], 0⟩
        [⟨1, "a.jpg", .annotated, [⟨1, 0, .bbox 10 10 20 20⟩]⟩])[0]? = some img' ∧
      img'.id = 1 ∧ img'.status = .annotated ∧
      ((⟨[(15, 15)], 0, 0, .delete, [0], [], 0⟩ : BatchConfig).operation = .delete →
        img'.anns = ([⟨1, 0, .bbox 10 10 20 20⟩] : List Ann).filter fun a =>
          ¬((∃ p ∈ [((15 : ℚ), (15 : ℚ))],
              is_point_in_annotation_data p.1 p.2 a.data = true) ∧ a.class_id ∈ [0])) ∧
      ((⟨[(15, 15)], 0, 0, .delete, [0], [], 0⟩ : BatchConfig).operation = .relabel →
        img'.anns = ([⟨1, 0, .bbox 10 10 20 20⟩] : List Ann).map fun a =>
          if (∃ p ∈ [((15 : ℚ), (15 : ℚ))],
              is_point_in_annotation_data p.1 p.2 a.data = true) ∧ a.class_id ∈ []
          then { a with class_id := 0 } else a)) :=
  ⟨(execute_batch_process_spec ⟨[(15, 15)], 0, 0, .delete, [0], [], 0⟩
      [⟨1, "a.jpg", .annotated, [⟨1, 0, .bbox 10 10 20 20⟩]⟩]).1 1 (Or.inr (by decide)),
   (execute_batch_process_spec ⟨[(15, 15)], 0, 0, .delete, [0], [], 0⟩
      [⟨1, "a.jpg", .annotated, [⟨1, 0, .bbox 10 10 20 20⟩]⟩]).2.1 0 _
      (by decide) (by decide) rfl⟩

/-- Derived-status invariant of §3 of the spec: an image's status
column is annotated exactly when its annotation set is non-empty. -/
def status_inv (img : DbImage) : Prop := img.status = .annotated ↔ img.anns ≠ []

/-- C7 (amended): the interactive paths maintain the derived-status
invariant — `Database.add_annotation` makes the set non-empty and sets
the status to annotated in the same transaction, and
`AnnotatePage.on_annotation_deleted` reverts the status to pending
exactly when the deletion empties the set.  (The class-cascade and
batch delete paths do not update the status; see the counterexample.) -/
theorem status_inv_interactive_preserved (img : DbImage) (a : Ann) (aid : ℕ)
    (h : status_inv img) :
    status_inv (db_add_ann img a) ∧ status_inv (on_ann_deleted img aid) := by
  constructor
  · simp [status_inv, db_add_ann]
  · have hred : on_ann_deleted img aid =
        if (img.anns.filter fun a => a.id ≠ aid) = [] then
          { img with anns := img.anns.filter fun a => a.id ≠ aid, status := .pending }
        else { img with anns := img.anns.filter fun a => a.id ≠ aid } := rfl
    rw [hred]
    by_cases he : (img.anns.filter fun a => a.id ≠ aid) = []
    · rw [if_pos he]
      exact iff_of_false (by simp) (not_not_intro he)
    · rw [if_neg he]
      have hne : img.anns ≠ [] := by
        intro h0
        rw [h0] at he
        exact he rfl
      exact iff_of_true (h.mpr hne) he

/-- Witness for C7: a pending empty image satisfies the invariant, and
both interactive operations preserve it. -/
theorem status_inv_interactive_preserved_witness :
    status_inv (db_add_ann ⟨1, "a.jpg", .pending, []⟩ ⟨1, 0, .bbox 1 1 2 2⟩) ∧
    status_inv (on_ann_deleted ⟨1, "a.jpg", .pending, []⟩ 1) :=
  status_inv_interactive_preserved ⟨1, "a.jpg", .pending, []⟩ ⟨1, 0, .bbox 1 1 2 2⟩ 1
    (by simp [status_inv])

/-- Counterexample for C7: the batch delete path empties the image's
annotation set but leaves its status column at annotated, so the status
is not re-derived after every deleting operation. -/
theorem batch_delete_leaves_stale_status :
    execute_batch_process ⟨[(15, 15)], 0, 0, .delete, [0], [], 0⟩
        [⟨1, "a.jpg", .annotated, [⟨1, 0, .bbox 10 10 20 20⟩]⟩] =
      [⟨1, "a.jpg", .annotated, []⟩] ∧
    ¬ status_inv (⟨1, "a.jpg", .annotated, []⟩ : DbImage) := by
  constructor
  · show batchGo _ 0 _ = _
    rw [batchGo, batchGo]
    rw [if_pos ⟨Nat.le.refl, Nat.le.refl⟩]
    show [batchProcessImage _ _] = _
    rw [batchProcessImage]
    have h : batchProcessOne ⟨[(15, 15)], 0, 0, .delete, [0], [], 0⟩ ⟨1, 0, .bbox 10 10 20 20⟩
        = [] := by
      rw [batchProcessOne_delete _ rfl]
      rw [if_pos ⟨⟨(15, 15), by simp, by
        show decide _ = true
        rw [decide_eq_true_eq]
        norm_num⟩, by simp⟩]
    simp [h]
  · simp [status_inv]

/-- A ClassDef entry of the project's classes JSON array (the color
field plays no role in any claim). -/
structure ClassDef where
  id : ℕ
  name : String
deriving DecidableEq

/-- Project state seen by `AnnotatePage.delete_class`: the classes
list, all project images with their annotation rows, and the index of
the currently loaded image (whose annotations are the page's
`self.annotations`). -/
structure ProjState where
  classes : List ClassDef
  images : List DbImage
  current : ℕ
deriving DecidableEq

/-- Renumbering loop of `delete_class` (annotate_page.py lines
2492-2494): remaining classes get ids 0..n-1 in list order. -/
def renumberClasses (classes : List ClassDef) : List ClassDef :=
  classes.enum.map fun ic => { ic.2 with id := ic.1 }

/-- `AnnotatePage.delete_class` (annotate_page.py lines 2467-2501):
if the id names an existing class, delete the CURRENT image's
annotation rows carrying that class id (the loop runs over
`self.annotations`, the loaded image's list only), drop the class from
the list and renumber the remaining classes 0..n-1.  No annotation row
— on the current image or elsewhere — has its class_id remapped, and
other images' rows of the deleted class are not deleted. -/
def delete_class (st : ProjState) (k : ℕ) : ProjState :=
  if st.classes.any fun c => c.id = k then
    { classes := renumberClasses (st.classes.filter fun c => c.id ≠ k),
      images := st.images.enum.map fun ii =>
        if ii.1 = st.current then
          { ii.2 with anns := ii.2.anns.filter fun a => a.class_id ≠ k }
        else ii.2,
      current := st.current }
  else st

/-- Concrete project used to exhibit the C2 violation: two classes,
two images; the current image is index 0; image b.jpg holds one
annotation of class 0 and one of class 1. -/
def c2state : ProjState :=
  { classes := [⟨0, "cat"⟩, ⟨1, "dog"⟩],
    images := [⟨1, "a.jpg", .annotated, [⟨1, 0, .bbox 1 1 2 2⟩]⟩,
               ⟨2, "b.jpg", .annotated, [⟨2, 0, .bbox 3 3 2 2⟩, ⟨3, 1, .bbox 5 5 2 2⟩]⟩],
    current := 0 }

/-- C2 exhibit: deleting class 0 renumbers the class list (dog becomes
id 0) but leaves image b.jpg's annotation of the deleted class 0 in the
store, and leaves its annotation of class 1 pointing at the stale id 1
even though the class formerly named by 1 is now id 0 — no cascade
beyond the current image and no remapping happen. -/
theorem delete_class_leaves_stale_class_ids :
    (delete_class c2state 0).classes = [⟨0, "dog"⟩] ∧
    (∃ img ∈ (delete_class c2state 0).images, ∃ a ∈ img.anns, a.class_id = 0) ∧
    (∃ img ∈ (delete_class c2state 0).images, ∃ a ∈ img.anns,
      ∀ c ∈ (delete_class c2state 0).classes, c.id ≠ a.class_id) := by
  have h : delete_class c2state 0 =
      { classes := [⟨0, "dog"⟩],
        images := [⟨1, "a.jpg", .annotated, []⟩,
                   ⟨2, "b.jpg", .annotated, [⟨2, 0, .bbox 3 3 2 2⟩, ⟨3, 1, .bbox 5 5 2 2⟩]⟩],
        current := 0 } := by
    rw [delete_class, if_pos (by simp [c2state])]
    simp [c2state, renumberClasses, List.filter, List.enum, List.enumFrom]
  refine ⟨by rw [h], ?_, ?_⟩
  · exact ⟨_, by rw [h]; exact List.mem_cons_of_mem _ (List.mem_singleton.mpr rfl),
      ⟨2, 0, .bbox 3 3 2 2⟩, by simp, rfl⟩
  · refine ⟨_, by rw [h]; exact List.mem_cons_of_mem _ (List.mem_singleton.mpr rfl),
      ⟨3, 1, .bbox 5 5 2 2⟩, by simp, ?_⟩
    intro c hc
    rw [h] at hc
    simp only [List.mem_singleton] at hc
    rw [hc]
    decide

/-- Python's int(...) cast applied to a float: truncation toward zero. -/
def pytrunc (q : ℚ) : ℤ := if 0 ≤ q then ⌊q⌋ else ⌈q⌉

/-- Canvas viewport state: `image_scale` and the integer `image_offset`
QPoint of `AnnotationCanvas`. -/
structure Viewport where
  image_scale : ℚ
  offx : ℤ
  offy : ℤ
deriving DecidableEq

/-- `AnnotationCanvas.image_to_widget` (annotate_page.py lines 214-218):
view point = image point * scale + offset, truncated to int pixels. -/
def image_to_widget (vp : Viewport) (x y : ℚ) : ℤ × ℤ :=
  (pytrunc (x * vp.image_scale + vp.offx), pytrunc (y * vp.image_scale + vp.offy))

/-- `AnnotationCanvas.widget_to_image` (annotate_page.py lines 220-224):
image point = (view point - offset) / scale, kept as floats. -/
def widget_to_image (vp : Viewport) (x y : ℤ) : ℚ × ℚ :=
  (((x : ℚ) - vp.offx) / vp.image_scale, ((y : ℚ) - vp.offy) / vp.image_scale)

/-- `AnnotationCanvas.wheelEvent` (annotate_page.py lines 759-786): the
image point under the mouse is computed with the old transform, the
scale is multiplied by 1.1 (scroll up) or 0.9 (scroll down) and clamped
to [0.1, 5.0], and the new offset is the mouse position minus that
image point times the new scale, truncated to int by the QPoint
constructor. -/
def wheel_zoom (vp : Viewport) (px py delta : ℤ) : Viewport :=
  let ix := ((px : ℚ) - vp.offx) / vp.image_scale
  let iy := ((py : ℚ) - vp.offy) / vp.image_scale
  let zoom_factor : ℚ := if 0 < delta then 11/10 else 9/10
  let new_scale := max (1/10) (min 5 (vp.image_scale * zoom_factor))
  { image_scale := new_scale,
    offx := pytrunc ((px : ℚ) - ix * new_scale),
    offy := pytrunc ((py : ℚ) - iy * new_scale) }

lemma pytrunc_sub_lt_one (q : ℚ) : |(pytrunc q : ℚ) - q| < 1 := by
  unfold pytrunc
  by_cases h : 0 ≤ q
  · rw [if_pos h, abs_sub_lt_iff]
    constructor
    · push_cast
      linarith [Int.floor_le q]
    · push_cast
      linarith [Int.sub_one_lt_floor q]
  · rw [if_neg h, abs_sub_lt_iff]
    constructor
    · push_cast
      linarith [Int.ceil_lt_add_one q]
    · push_cast
      linarith [Int.le_ceil q]

lemma pytrunc_nest_close (p : ℤ) (t : ℚ) :
    |pytrunc (t + (pytrunc ((p : ℚ) - t) : ℚ)) - p| ≤ 1 := by
  have h1 := pytrunc_sub_lt_one ((p : ℚ) - t)
  have h2 := pytrunc_sub_lt_one (t + (pytrunc ((p : ℚ) - t) : ℚ))
  have h3 : |((pytrunc (t + (pytrunc ((p : ℚ) - t) : ℚ)) : ℤ) : ℚ) - (p : ℚ)| < 2 := by
    have := abs_sub_lt_iff.mp h1
    have := abs_sub_lt_iff.mp h2
    rw [abs_sub_lt_iff]
    constructor <;> linarith [this.1, this.2]
  have h4 : |pytrunc (t + (pytrunc ((p : ℚ) - t) : ℚ)) - p| < 2 := by
    have hcast : ((|pytrunc (t + (pytrunc ((p : ℚ) - t) : ℚ)) - p| : ℤ) : ℚ) =
        |((pytrunc (t + (pytrunc ((p : ℚ) - t) : ℚ)) : ℤ) : ℚ) - (p : ℚ)| := by
      push_cast
      rfl
    exact_mod_cast hcast ▸ h3
  omega

/-- Counterexample for C4: zooming out (factor 0.9) at pivot (5,5) from
scale 1, offset (0,0): the image point under the pivot was (5,5); after
the zoom it maps to view point (4,4), not back to the pivot — the
QPoint int() truncation of the recomputed offset breaks the exact
equality claimed. -/
theorem wheel_zoom_pivot_not_exact :
    image_to_widget (wheel_zoom ⟨1, 0, 0⟩ 5 5 (-1))
        (widget_to_image ⟨1, 0, 0⟩ 5 5).1 (widget_to_image ⟨1, 0, 0⟩ 5 5).2 = (4, 4) ∧
    ((4, 4) : ℤ × ℤ) ≠ (5, 5) := by
  constructor
  · have hw : widget_to_image ⟨1, 0, 0⟩ 5 5 = (5, 5) := by
      unfold widget_to_image
      norm_num
    rw [hw]
    have hz : wheel_zoom ⟨1, 0, 0⟩ 5 5 (-1) = ⟨9/10, 0, 0⟩ := by
      unfold wheel_zoom
      simp only
      norm_num [pytrunc, Int.floor_eq_iff]
    rw [hz]
    unfold image_to_widget
    norm_num [pytrunc, Int.floor_eq_iff]
  · decide

/-- C4 (amended): the new scale is the old one times the wheel factor
(1.1 or 0.9) clamped to [0.1, 5.0], exactly as the claim states; but
the image point that was under the pivot maps back only to within one
view pixel of the pivot in each coordinate, because the recomputed
offset (and the view transform itself) truncates to integer pixels. -/
theorem wheel_zoom_scale_clamped_pivot_within_one (vp : Viewport) (px py delta : ℤ)
    (hs : 0 < vp.image_scale) :
    (1/10 : ℚ) ≤ (wheel_zoom vp px py delta).image_scale ∧
    (wheel_zoom vp px py delta).image_scale ≤ 5 ∧
    (wheel_zoom vp px py delta).image_scale =
      min 5 (max (1/10) (vp.image_scale * (if 0 < delta then 11/10 else 9/10))) ∧
    |(image_to_widget (wheel_zoom vp px py delta)
        (widget_to_image vp px py).1 (widget_to_image vp px py).2).1 - px| ≤ 1 ∧
    |(image_to_widget (wheel_zoom vp px py delta)
        (widget_to_image vp px py).1 (widget_to_image vp px py).2).2 - py| ≤ 1 := by
  refine ⟨le_max_left _ _, max_le (by norm_num) (min_le_left _ _), ?_, ?_, ?_⟩
  · show max (1/10) (min 5 (vp.image_scale * _)) = _
    rw [max_min_distrib_left, max_eq_right (by norm_num : (1/10 : ℚ) ≤ 5)]
  · exact pytrunc_nest_close px _
  · exact pytrunc_nest_close py _

/-- Witness for C4 (amended) at scale 1, offset (0,0), pivot (5,5),
zoom out. -/
theorem wheel_zoom_scale_clamped_pivot_within_one_witness :
    (1/10 : ℚ) ≤ (wheel_zoom ⟨1, 0, 0⟩ 5 5 (-1)).image_scale ∧
    (wheel_zoom ⟨1, 0, 0⟩ 5 5 (-1)).image_scale ≤ 5 ∧
    (wheel_zoom ⟨1, 0, 0⟩ 5 5 (-1)).image_scale =
      min 5 (max (1/10) ((1 : ℚ) * (if (0 : ℤ) < -1 then 11/10 else 9/10))) ∧
    |(image_to_widget (wheel_zoom ⟨1, 0, 0⟩ 5 5 (-1))
        (widget_to_image ⟨1, 0, 0⟩ 5 5).1 (widget_to_image ⟨1, 0, 0⟩ 5 5).2).1 - 5| ≤ 1 ∧
    |(image_to_widget (wheel_zoom ⟨1, 0, 0⟩ 5 5 (-1))
        (widget_to_image ⟨1, 0, 0⟩ 5 5).1 (widget_to_image ⟨1, 0, 0⟩ 5 5).2).2 - 5| ≤ 1 :=
  wheel_zoom_scale_clamped_pivot_within_one ⟨1, 0, 0⟩ 5 5 (-1) (by norm_num)

/-- A bbox rectangle {x, y, width, height} in image pixel space. -/
structure RectQ where
  x : ℚ
  y : ℚ
  width : ℚ
  height : ℚ
deriving DecidableEq

/-- The four corner resize handles of a selected bbox. -/
inductive Handle where
  | top_left
  | top_right
  | bottom_left
  | bottom_right
deriving DecidableEq

/-- Per-handle recomputation of `resize_annotation` (annotate_page.py
lines 714-737), after the mouse position has been clamped into the
image: the opposite corner of `start` stays pinned and the dragged
corner follows the pointer. -/
def resizeRaw (W H : ℚ) (handle : Handle) (s : RectQ) (ix iy : ℚ) : RectQ :=
  match handle with
  | .top_left =>
      let x := max 0 (min ix (s.x + s.width))
      let y := max 0 (min iy (s.y + s.height))
      ⟨x, y, s.x + s.width - x, s.y + s.height - y⟩
  | .top_right =>
      let y := max 0 (min iy (s.y + s.height))
      ⟨s.x, y, min ix W - s.x, s.y + s.height - y⟩
  | .bottom_left =>
      let x := max 0 (min ix (s.x + s.width))
      ⟨x, s.y, s.x + s.width - x, min iy H - s.y⟩
  | .bottom_right => ⟨s.x, s.y, min ix W - s.x, min iy H - s.y⟩

/-- Negative-dimension normalization of `resize_annotation`
(annotate_page.py lines 739-745): a negative width or height flips the
anchor corner (`x += width; width = abs(width)`). -/
def flipNeg (r : RectQ) : RectQ :=
  let r1 := if r.width < 0 then { r with x := r.x + r.width, width := |r.width| } else r
  if r1.height < 0 then { r1 with y := r1.y + r1.height, height := |r1.height| } else r1

/-- Final clamp of `resize_annotation` (annotate_page.py lines
747-752): position clamped into the image, then width and height capped
to the remaining extent. -/
def clampRect (W H : ℚ) (r : RectQ) : RectQ :=
  let x := max 0 (min r.x W)
  let y := max 0 (min r.y H)
  ⟨x, y, min r.width (W - x), min r.height (H - y)⟩

/-- `AnnotationCanvas.resize_annotation` (annotate_page.py lines
692-752) with an image of size W x H loaded: clamp the pointer into the
image, recompute the rectangle from the pinned corner, flip negative
dimensions, clamp to the image. -/
def resize_ann (W H : ℚ) (handle : Handle) (s : RectQ) (mx my : ℚ) : RectQ :=
  let ix := max 0 (min mx W)
  let iy := max 0 (min my H)
  clampRect W H (flipNeg (resizeRaw W H handle s ix iy))

lemma flipNeg_nonneg (r : RectQ) : 0 ≤ (flipNeg r).width ∧ 0 ≤ (flipNeg r).height := by
  unfold flipNeg
  by_cases h1 : r.width < 0
  · rw [if_pos h1]
    by_cases h2 : r.height < 0
    · rw [if_pos h2]
      exact ⟨abs_nonneg _, abs_nonneg _⟩
    · rw [if_neg h2]
      exact ⟨abs_nonneg _, le_of_not_lt h2⟩
  · rw [if_neg h1]
    by_cases h2 : r.height < 0
    · rw [if_pos h2]
      exact ⟨le_of_not_lt h1, abs_nonneg _⟩
    · rw [if_neg h2]
      exact ⟨le_of_not_lt h1, le_of_not_lt h2⟩

lemma clampRect_invariants (W H : ℚ) (r : RectQ) (hW : 0 ≤ W) (hH : 0 ≤ H)
    (hw : 0 ≤ r.width) (hh : 0 ≤ r.height) :
    0 ≤ (clampRect W H r).x ∧ 0 ≤ (clampRect W H r).y ∧
    0 ≤ (clampRect W H r).width ∧ 0 ≤ (clampRect W H r).height ∧
    (clampRect W H r).x + (clampRect W H r).width ≤ W ∧
    (clampRect W H r).y + (clampRect W H r).height ≤ H := by
  unfold clampRect
  have hx1 : (0 : ℚ) ≤ max 0 (min r.x W) := le_max_left _ _
  have hx2 : max 0 (min r.x W) ≤ W := max_le hW (min_le_right _ _)
  have hy1 : (0 : ℚ) ≤ max 0 (min r.y H) := le_max_left _ _
  have hy2 : max 0 (min r.y H) ≤ H := max_le hH (min_le_right _ _)
  refine ⟨hx1, hy1, le_min hw (by linarith), le_min hh (by linarith), ?_, ?_⟩
  · have := min_le_right r.width (W - max 0 (min r.x W))
    linarith
  · have := min_le_right r.height (H - max 0 (min r.y H))
    linarith

/-- C5: for every handle, every start rectangle and every pointer
position (including positions past the opposite corner), one
resize-move step yields a rectangle with nonnegative width and height
that lies inside the image: 0 ≤ x, 0 ≤ y, x+width ≤ W, y+height ≤ H. -/
theorem resize_ann_invariants (W H : ℚ) (handle : Handle) (s : RectQ) (mx my : ℚ)
    (hW : 0 ≤ W) (hH : 0 ≤ H) :
    0 ≤ (resize_ann W H handle s mx my).x ∧ 0 ≤ (resize_ann W H handle s mx my).y ∧
    0 ≤ (resize_ann W H handle s mx my).width ∧ 0 ≤ (resize_ann W H handle s mx my).height ∧
    (resize_ann W H handle s mx my).x + (resize_ann W H handle s mx my).width ≤ W ∧
    (resize_ann W H handle s mx my).y + (resize_ann W H handle s mx my).height ≤ H := by
  have h := flipNeg_nonneg (resizeRaw W H handle s (max 0 (min mx W)) (max 0 (min my H)))
  exact clampRect_invariants W H _ hW hH h.1 h.2

/-- Witness for C5: 100x100 image, top-left handle of start rectangle
(10,10,20,20), pointer dragged to (50,50) — past the opposite corner. -/
theorem resize_ann_invariants_witness :
    0 ≤ (resize_ann 100 100 .top_left ⟨10, 10, 20, 20⟩ 50 50).x ∧
    0 ≤ (resize_ann 100 100 .top_left ⟨10, 10, 20, 20⟩ 50 50).y ∧
    0 ≤ (resize_ann 100 100 .top_left ⟨10, 10, 20, 20⟩ 50 50).width ∧
    0 ≤ (resize_ann 100 100 .top_left ⟨10, 10, 20, 20⟩ 50 50).height ∧
    (resize_ann 100 100 .top_left ⟨10, 10, 20, 20⟩ 50 50).x +
      (resize_ann 100 100 .top_left ⟨10, 10, 20, 20⟩ 50 50).width ≤ 100 ∧
    (resize_ann 100 100 .top_left ⟨10, 10, 20, 20⟩ 50 50).y +
      (resize_ann 100 100 .top_left ⟨10, 10, 20, 20⟩ 50 50).height ≤ 100 :=
  resize_ann_invariants 100 100 .top_left ⟨10, 10, 20, 20⟩ 50 50 (by norm_num) (by norm_num)

/-- Model of the f-string `%.6f` formatting of the YOLO exporter
(annotate_page.py line 2731): round to six decimal places (ties modelled
as half-up; no claim input sits on a tie). -/
def round6 (q : ℚ) : ℚ := (⌊q * 1000000 + 1/2⌋ : ℤ) / 1000000

/-- YOLO encoding of one bbox (annotate_page.py lines 2714-2731):
normalized centre and size, each written with six decimals. -/
def yolo_encode (W H : ℚ) (b : RectQ) : ℚ × ℚ × ℚ × ℚ :=
  (round6 ((b.x + b.width / 2) / W), round6 ((b.y + b.height / 2) / H),
   round6 (b.width / W), round6 (b.height / H))

/-- YOLO decoding of one detect-task line
(annotation_importer.py lines 459-475). -/
def yolo_decode (W H : ℚ) (cx cy w h : ℚ) : RectQ :=
  ⟨(cx - w / 2) * W, (cy - h / 2) * H, w * W, h * H⟩

lemma round6_close (q : ℚ) : |round6 q - q| ≤ 1/2000000 := by
  unfold round6
  have h1 : ((⌊q * 1000000 + 1/2⌋ : ℤ) : ℚ) ≤ q * 1000000 + 1/2 := Int.floor_le _
  have h2 : q * 1000000 + 1/2 - 1 < ((⌊q * 1000000 + 1/2⌋ : ℤ) : ℚ) := Int.sub_one_lt_floor _
  rw [abs_le]
  constructor <;> linarith

lemma err_bound_mul (W : ℚ) (hW : 0 < W) (hWb : W ≤ 1333) (a b : ℚ)
    (ha : |a| ≤ 1/2000000) (hb : |b| ≤ 1/2000000) :
    |(a - b / 2) * W| ≤ 1/1000 := by
  rw [abs_mul, abs_of_pos hW]
  have htri : |a - b / 2| ≤ |a| + |b / 2| := abs_sub _ _
  have hhalf : |b / 2| = |b| / 2 := by
    rw [abs_div]
    norm_num
  have h1 : |a - b / 2| ≤ 3/4000000 := by
    rw [hhalf] at htri
    linarith
  calc |a - b / 2| * W ≤ 3/4000000 * 1333 :=
        mul_le_mul h1 hWb (le_of_lt hW) (by norm_num)
    _ ≤ 1/1000 := by norm_num

/-- Counterexample for C3: the six-decimal rounding error is relative
to the image size.  For a 1000000-pixel-wide image and the bbox
x=0.4999, y=0, w=0, h=0 (inside the image, nonnegative size), the
encoded centre 0.0000004999 rounds to 0.000000, and decoding returns
x=0 — an error of 0.4999 pixels, far beyond the claimed 1e-3. -/
theorem yolo_round_trip_beyond_1e3 :
    (0 : ℚ) < 1000000 ∧ (0 : ℚ) ≤ 4999/10000 ∧ 4999/10000 + 0 ≤ (1000000 : ℚ) ∧
    yolo_encode 1000000 1000000 ⟨4999/10000, 0, 0, 0⟩ = (0, 0, 0, 0) ∧
    ¬ |(yolo_decode 1000000 1000000 0 0 0 0).x - 4999/10000| ≤ 1/1000 := by
  refine ⟨by norm_num, by norm_num, by norm_num, ?_, ?_⟩
  · unfold yolo_encode round6
    norm_num [Int.floor_eq_iff]
  · unfold yolo_decode
    simp only
    rw [abs_le]
    norm_num

/-- C3 (amended): the 6-decimal YOLO round trip reproduces a bbox with
nonnegative size lying inside the image to within 1e-3 pixel in each
component, provided the image is at most 1333 pixels in each dimension
(in general the error is bounded by 0.75e-6 times the image size, which
the counterexample shows can exceed 1e-3 for larger images). -/
theorem yolo_round_trip_within_1e3 (W H : ℚ) (b : RectQ)
    (hW : 0 < W) (hH : 0 < H) (hWb : W ≤ 1333) (hHb : H ≤ 1333)
    (hw : 0 ≤ b.width) (hh : 0 ≤ b.height) (hx : 0 ≤ b.x) (hy : 0 ≤ b.y)
    (hxw : b.x + b.width ≤ W) (hyh : b.y + b.height ≤ H) :
    |(yolo_decode W H (yolo_encode W H b).1 (yolo_encode W H b).2.1
        (yolo_encode W H b).2.2.1 (yolo_encode W H b).2.2.2).x - b.x| ≤ 1/1000 ∧
    |(yolo_decode W H (yolo_encode W H b).1 (yolo_encode W H b).2.1
        (yolo_encode W H b).2.2.1 (yolo_encode W H b).2.2.2).y - b.y| ≤ 1/1000 ∧
    |(yolo_decode W H (yolo_encode W H b).1 (yolo_encode W H b).2.1
        (yolo_encode W H b).2.2.1 (yolo_encode W H b).2.2.2).width - b.width| ≤ 1/1000 ∧
    |(yolo_decode W H (yolo_encode W H b).1 (yolo_encode W H b).2.1
        (yolo_encode W H b).2.2.1 (yolo_encode W H b).2.2.2).height - b.height| ≤ 1/1000 := by
  have hW' : W ≠ 0 := ne_of_gt hW
  have hH' : H ≠ 0 := ne_of_gt hH
  refine ⟨?_, ?_, ?_, ?_⟩
  · have hkey : (yolo_decode W H (yolo_encode W H b).1 (yolo_encode W H b).2.1
        (yolo_encode W H b).2.2.1 (yolo_encode W H b).2.2.2).x - b.x =
        ((round6 ((b.x + b.width / 2) / W) - (b.x + b.width / 2) / W) -
          (round6 (b.width / W) - b.width / W) / 2) * W := by
      show (round6 ((b.x + b.width / 2) / W) - round6 (b.width / W) / 2) * W - b.x = _
      generalize round6 ((b.x + b.width / 2) / W) = rc
      generalize round6 (b.width / W) = rw6
      field_simp
      ring
    rw [hkey]
    exact err_bound_mul W hW hWb _ _ (round6_close _) (round6_close _)
  · have hkey : (yolo_decode W H (yolo_encode W H b).1 (yolo_encode W H b).2.1
        (yolo_encode W H b).2.2.1 (yolo_encode W H b).2.2.2).y - b.y =
        ((round6 ((b.y + b.height / 2) / H) - (b.y + b.height / 2) / H) -
          (round6 (b.height / H) - b.height / H) / 2) * H := by
      show (round6 ((b.y + b.height / 2) / H) - round6 (b.height / H) / 2) * H - b.y = _
      generalize round6 ((b.y + b.height / 2) / H) = rc
      generalize round6 (b.height / H) = rh6
      field_simp
      ring
    rw [hkey]
    exact err_bound_mul H hH hHb _ _ (round6_close _) (round6_close _)
  · have hkey : (yolo_decode W H (yolo_encode W H b).1 (yolo_encode W H b).2.1
        (yolo_encode W H b).2.2.1 (yolo_encode W H b).2.2.2).width - b.width =
        ((round6 (b.width / W) - b.width / W) - 0 / 2) * W := by
      show round6 (b.width / W) * W - b.width = _
      generalize round6 (b.width / W) = rw6
      field_simp
    rw [hkey]
    exact err_bound_mul W hW hWb _ _ (round6_close _) (by norm_num)
  · have hkey : (yolo_decode W H (yolo_encode W H b).1 (yolo_encode W H b).2.1
        (yolo_encode W H b).2.2.1 (yolo_encode W H b).2.2.2).height - b.height =
        ((round6 (b.height / H) - b.height / H) - 0 / 2) * H := by
      show round6 (b.height / H) * H - b.height = _
      generalize round6 (b.height / H) = rh6
      field_simp
    rw [hkey]
    exact err_bound_mul H hH hHb _ _ (round6_close _) (by norm_num)

/-- Witness for C3 (amended): 100x100 image, bbox (10,10,20,20). -/
theorem yolo_round_trip_within_1e3_witness :
    |(yolo_decode 100 100 (yolo_encode 100 100 ⟨10, 10, 20, 20⟩).1
        (yolo_encode 100 100 ⟨10, 10, 20, 20⟩).2.1
        (yolo_encode 100 100 ⟨10, 10, 20, 20⟩).2.2.1
        (yolo_encode 100 100 ⟨10, 10, 20, 20⟩).2.2.2).x - 10| ≤ 1/1000 ∧
    |(yolo_decode 100 100 (yolo_encode 100 100 ⟨10, 10, 20, 20⟩).1
        (yolo_encode 100 100 ⟨10, 10, 20, 20⟩).2.1
        (yolo_encode 100 100 ⟨10, 10, 20, 20⟩).2.2.1
        (yolo_encode 100 100 ⟨10, 10, 20, 20⟩).2.2.2).y - 10| ≤ 1/1000 ∧
    |(yolo_decode 100 100 (yolo_encode 100 100 ⟨10, 10, 20, 20⟩).1
        (yolo_encode 100 100 ⟨10, 10, 20, 20⟩).2.1
        (yolo_encode 100 100 ⟨10, 10, 20, 20⟩).2.2.1
        (yolo_encode 100 100 ⟨10, 10, 20, 20⟩).2.2.2).width - 20| ≤ 1/1000 ∧
    |(yolo_decode 100 100 (yolo_encode 100 100 ⟨10, 10, 20, 20⟩).1
        (yolo_encode 100 100 ⟨10, 10, 20, 20⟩).2.1
        (yolo_encode 100 100 ⟨10, 10, 20, 20⟩).2.2.1
        (yolo_encode 100 100 ⟨10, 10, 20, 20⟩).2.2.2).height - 20| ≤ 1/1000 :=
  yolo_round_trip_within_1e3 100 100 ⟨10, 10, 20, 20⟩ (by norm_num) (by norm_num)
    (by norm_num) (by norm_num) (by norm_num) (by norm_num) (by norm_num) (by norm_num)
    (by norm_num) (by norm_num)

/-- A whitespace-separated token of a YOLO label line, as seen by the
Python constructors `int(tok)` and `float(tok)`: each either yields a
value or raises ValueError (modelled as none). -/
structure YoloTok where
  asInt : Option ℤ
  asFloat : Option ℚ
deriving DecidableEq

/-- A decoded YOLO annotation of the detect task: class id and pixel
bbox. -/
structure YoloAnn where
  class_id : ℤ
  data : RectQ
deriving DecidableEq

/-- One iteration of the line loop of `_parse_yolo_file`
(annotation_importer.py lines 368-475) for a detect-task project:
a blank line is skipped; `int(parts[0])` may raise (error); a line with
fewer than five tokens appends nothing; otherwise the four floats may
raise, else the bbox is decoded from normalized to pixel space. -/
def parse_yolo_line (imgW imgH : ℚ) (parts : List YoloTok) : Except Unit (Option YoloAnn) :=
  match parts with
  | [] => .ok none
  | t0 :: rest =>
    match t0.asInt with
    | none => .error ()
    | some cid =>
      match rest with
      | t1 :: t2 :: t3 :: t4 :: _ =>
        match t1.asFloat, t2.asFloat, t3.asFloat, t4.asFloat with
        | some cx, some cy, some w, some h =>
            .ok (some ⟨cid, ⟨(cx - w / 2) * imgW, (cy - h / 2) * imgH, w * imgW, h * imgH⟩⟩)
        | _, _, _, _ => .error ()
      | _ => .ok none

/-- Line loop of `_parse_yolo_file` with its surrounding try/except:
the handler wraps the WHOLE loop (lines 364-478), so the first raising
line ends the parse and the annotations collected so far are returned. -/
def parse_yolo_go (imgW imgH : ℚ) : List YoloAnn → List (List YoloTok) → List YoloAnn
  | acc, [] => acc
  | acc, l :: rest =>
    match parse_yolo_line imgW imgH l with
    | .error _ => acc
    | .ok none => parse_yolo_go imgW imgH acc rest
    | .ok (some a) => parse_yolo_go imgW imgH (acc ++ [a]) rest

/-- `AnnotationImporter._parse_yolo_file` on a tokenized label file. -/
def parse_yolo_file (imgW imgH : ℚ) (lines : List (List YoloTok)) : List YoloAnn :=
  parse_yolo_go imgW imgH [] lines

/-- Counterexample for C8: a file whose first line has an unparsable
class id ("abc") followed by a perfectly well-formed line parses to
nothing — the well-formed line after the malformed one is lost, because
the try/except of `_parse_yolo_file` wraps the whole loop.  The same
well-formed line alone parses to one annotation. -/
theorem parse_yolo_bad_line_kills_rest :
    parse_yolo_file 100 100
      [[⟨none, none⟩],
       [⟨some 0, some 0⟩, ⟨none, some (1/2)⟩, ⟨none, some (1/2)⟩,
        ⟨none, some (1/4)⟩, ⟨none, some (1/4)⟩]] = [] ∧
    parse_yolo_file 100 100
      [[⟨some 0, some 0⟩, ⟨none, some (1/2)⟩, ⟨none, some (1/2)⟩,
        ⟨none, some (1/4)⟩, ⟨none, some (1/4)⟩]] ≠ [] := by
  constructor
  · rfl
  · intro h
    simp [parse_yolo_file, parse_yolo_go, parse_yolo_line] at h

lemma parse_yolo_go_error_free (imgW imgH : ℚ) (bad : List YoloTok)
    (suffix : List (List YoloTok)) (hbad : parse_yolo_line imgW imgH bad = .error ()) :
    ∀ (pre : List (List YoloTok)) (acc : List YoloAnn),
      (∀ line ∈ pre, parse_yolo_line imgW imgH line ≠ .error ()) →
      parse_yolo_go imgW imgH acc (pre ++ bad :: suffix) = parse_yolo_go imgW imgH acc pre := by
  intro pre
  induction pre with
  | nil =>
      intro acc _
      show parse_yolo_go imgW imgH acc (bad :: suffix) = acc
      rw [parse_yolo_go, hbad]
  | cons l pre' ih =>
      intro acc hfree
      rw [List.cons_append, parse_yolo_go, parse_yolo_go]
      rcases h : parse_yolo_line imgW imgH l with _ | ao
      · exact absurd h (hfree l (List.mem_cons_self _ _))
      · rcases ao with _ | a
        · exact ih acc fun ln hln => hfree ln (List.mem_cons_of_mem _ hln)
        · exact ih (acc ++ [a]) fun ln hln => hfree ln (List.mem_cons_of_mem _ hln)

/-- C8 (amended): a blank or too-short line (one the parser decodes to
nothing without raising) is skipped individually; but a line whose
class id or coordinate fields fail to parse aborts the remainder of the
file — annotations from the lines before it are kept, and every line
after it (well-formed or not) is dropped. -/
theorem parse_yolo_skip_and_abort (imgW imgH : ℚ) :
    (∀ (l : List YoloTok) (rest : List (List YoloTok)),
      parse_yolo_line imgW imgH l = .ok none →
      parse_yolo_file imgW imgH (l :: rest) = parse_yolo_file imgW imgH rest) ∧
    (∀ (pre : List (List YoloTok)) (bad : List YoloTok) (suffix : List (List YoloTok)),
      (∀ line ∈ pre, parse_yolo_line imgW imgH line ≠ .error ()) →
      parse_yolo_line imgW imgH bad = .error () →
      parse_yolo_file imgW imgH (pre ++ bad :: suffix) = parse_yolo_file imgW imgH pre) := by
  constructor
  · intro l rest hskip
    show parse_yolo_go imgW imgH [] (l :: rest) = _
    rw [parse_yolo_go, hskip]
    rfl
  · intro pre bad suffix hfree hbad
    exact parse_yolo_go_error_free imgW imgH bad suffix hbad pre [] hfree

/-- Witness for C8 (amended): skipping a blank line, and aborting at an
"abc"-style line after one good line. -/
theorem parse_yolo_skip_and_abort_witness :
    parse_yolo_file 100 100 [[], [⟨none, none⟩]] = parse_yolo_file 100 100 [[⟨none, none⟩]] ∧
    parse_yolo_file 100 100
        ([[⟨some 0, some 0⟩, ⟨none, some (1/2)⟩, ⟨none, some (1/2)⟩,
           ⟨none, some (1/4)⟩, ⟨none, some (1/4)⟩]] ++ [⟨none, none⟩] :: [[]]) =
      parse_yolo_file 100 100
        [[⟨some 0, some 0⟩, ⟨none, some (1/2)⟩, ⟨none, some (1/2)⟩,
          ⟨none, some (1/4)⟩, ⟨none, some (1/4)⟩]] :=
  ⟨(parse_yolo_skip_and_abort 100 100).1 [] [[⟨none, none⟩]] rfl,
   (parse_yolo_skip_and_abort 100 100).2
     [[⟨some 0, some 0⟩, ⟨none, some (1/2)⟩, ⟨none, some (1/2)⟩,
       ⟨none, some (1/4)⟩, ⟨none, some (1/4)⟩]] [⟨none, none⟩] [[]]
     (by
       intro line hline
       simp only [List.mem_singleton] at hline
       rw [hline]
       intro h
       simp [parse_yolo_line] at h)
     rfl⟩

/-- The name-to-id map built once in `AnnotationImporter.__init__`
(annotation_importer.py lines 31-33) from the project's classes JSON. -/
def class_map (classes : List ClassDef) : List (String × ℕ) :=
  classes.map fun c => (c.name, c.id)

/-- The class-name resolver used by `import_voc_annotations`
(annotation_importer.py line 310): `self.class_map.get(class_name, 0)`. -/
def resolve_class_id (classes : List ClassDef) (name : String) : ℕ :=
  ((class_map classes).lookup name).getD 0

/-- Counterexample for C9: with project classes cat=0 and bird=1, the
unseen name "dog" resolves to 0 — an already-used id — and the
resolver never creates any class id at all, rather than appending a
fresh id past the current maximum. -/
theorem resolve_class_id_collides :
    resolve_class_id [⟨0, "cat"⟩, ⟨1, "bird"⟩] "dog" = 0 ∧
    (0 : ℕ) ∈ ([⟨0, "cat"⟩, ⟨1, "bird"⟩] : List ClassDef).map ClassDef.id := by
  constructor
  · rfl
  · simp [ClassDef.id]

/-- C9 (amended): the importer resolves any class name absent from the
project's ClassDef list to the literal default id 0 (`dict.get(name,
0)`), possibly colliding with an existing class; no new id is ever
created during import (COCO import does not consult the map at all —
it stores the raw category_id). -/
theorem resolve_class_id_unseen_eq_zero (classes : List ClassDef) (name : String)
    (h : ∀ c ∈ classes, c.name ≠ name) :
    resolve_class_id classes name = 0 := by
  unfold resolve_class_id
  have hl : (class_map classes).lookup name = none := by
    induction classes with
    | nil => rfl
    | cons c cs ih =>
        have hc : c.name ≠ name := h c (List.mem_cons_self _ _)
        show List.lookup name ((c.name, c.id) :: class_map cs) = none
        have hbeq : (name == c.name) = false := beq_eq_false_iff_ne.mpr fun he => hc he.symm
        rw [List.lookup_cons, hbeq]
        exact ih fun x hx => h x (List.mem_cons_of_mem _ hx)
  rw [hl]
  rfl

/-- Witness for C9 (amended): "dog" is unseen among cat=0. -/
theorem resolve_class_id_unseen_eq_zero_witness :
    resolve_class_id [⟨0, "cat"⟩] "dog" = 0 :=
  resolve_class_id_unseen_eq_zero [⟨0, "cat"⟩] "dog" (by
    intro c hc
    simp only [List.mem_singleton] at hc
    rw [hc]
    decide)

/-- An entry of the COCO file's images array. -/
structure CocoImage where
  id : ℕ
  file_name : String
deriving DecidableEq

/-- An entry of the COCO file's categories array. -/
structure CocoCat where
  id : ℕ
  name : String
deriving DecidableEq

/-- An entry of the COCO file's annotations array: foreign keys plus an
optional bbox and an optional polygon segmentation. -/
structure CocoAnn where
  image_id : ℕ
  category_id : ℕ
  bbox : Option RectQ
  seg : Option (List Pt)
deriving DecidableEq

/-- State threaded through a COCO import: the project's image records,
the store's next autoincrement annotation id, and the running counters
returned as `(imported, skipped)`. -/
structure ImportState where
  db : List DbImage
  next_id : ℕ
  imported : ℕ
  skipped : ℕ
deriving DecidableEq

/-- `AnnotationImporter._find_image_record_by_filename`
(annotation_importer.py lines 554-570): first project image whose
filename matches. -/
def db_find_by_filename (db : List DbImage) (fn : String) : Option DbImage :=
  db.find? fun im => im.filename = fn

/-- Apply a per-image store operation to the image with the given id. -/
def db_update_image (db : List DbImage) (iid : ℕ) (f : DbImage → DbImage) : List DbImage :=
  db.map fun im => if im.id = iid then f im else im

/-- One iteration of the annotation loop of `import_coco_annotations`
(annotation_importer.py lines 157-237), in source order: resolve the
COCO image id, find the project image by filename, check THAT IMAGE'S
CURRENT annotations against the overwrite flag (this check runs once
per COCO annotation, not once per image), delete them all when
overwriting, then resolve the category and insert the bbox and/or
segmentation rows with the raw category_id as class id. -/
def coco_step (images : List CocoImage) (cats : List CocoCat) (overwrite : Bool)
    (st : ImportState) (a : CocoAnn) : ImportState :=
  match images.find? fun ci => ci.id = a.image_id with
  | none => { st with skipped := st.skipped + 1 }
  | some ci =>
    match db_find_by_filename st.db ci.file_name with
    | none => { st with skipped := st.skipped + 1 }
    | some rec0 =>
      if rec0.anns ≠ [] ∧ ¬ overwrite then { st with skipped := st.skipped + 1 }
      else
        let db1 := if rec0.anns ≠ [] ∧ overwrite then
            db_update_image st.db rec0.id db_delete_image_anns
          else st.db
        match cats.find? fun c => c.id = a.category_id with
        | none => { st with db := db1, skipped := st.skipped + 1 }
        | some _cat =>
          let st1 : ImportState := { st with db := db1 }
          let st2 : ImportState :=
            match a.bbox with
            | some b =>
                { st1 with
                  db := db_update_image st1.db rec0.id fun im =>
                    db_add_ann im ⟨st1.next_id, a.category_id, .bbox b.x b.y b.width b.height⟩,
                  next_id := st1.next_id + 1,
                  imported := st1.imported + 1 }
            | none => st1
          match a.seg with
          | some pts =>
              { st2 with
                db := db_update_image st2.db rec0.id fun im =>
                  db_add_ann im ⟨st2.next_id, a.category_id, .polygon pts⟩,
                next_id := st2.next_id + 1,
                imported := st2.imported + 1 }
          | none => st2

/-- `AnnotationImporter.import_coco_annotations`: fold the per-row step
over the COCO annotations array. -/
def import_coco (images : List CocoImage) (cats : List CocoCat) (anns : List CocoAnn)
    (overwrite : Bool) (st0 : ImportState) : ImportState :=
  anns.foldl (coco_step images cats overwrite) st0

/-- C1 exhibit: importing a COCO file with TWO bbox annotations for
img.jpg (which already holds one annotation) with overwrite=true ends
with the image holding ONLY the second decoded bbox: the per-annotation
overwrite check deleted the row the same import had just inserted.  The
returned imported count is 2 even though one row survives, so the final
annotation set is not the decoded set {bbox1, bbox2}. -/
theorem import_coco_overwrite_drops_prior_rows :
    (import_coco [⟨1, "img.jpg"⟩] [⟨0, "cat"⟩]
        [⟨1, 0, some ⟨10, 10, 5, 5⟩, none⟩, ⟨1, 0, some ⟨20, 20, 5, 5⟩, none⟩] true
        ⟨[⟨1, "img.jpg", .annotated, [⟨100, 0, .bbox 1 1 1 1⟩]⟩], 101, 0, 0⟩).db =
      [⟨1, "img.jpg", .annotated, [⟨102, 0, .bbox 20 20 5 5⟩]⟩] ∧
    (import_coco [⟨1, "img.jpg"⟩] [⟨0, "cat"⟩]
        [⟨1, 0, some ⟨10, 10, 5, 5⟩, none⟩, ⟨1, 0, some ⟨20, 20, 5, 5⟩, none⟩] true
        ⟨[⟨1, "img.jpg", .annotated, [⟨100, 0, .bbox 1 1 1 1⟩]⟩], 101, 0, 0⟩).imported = 2 := by
  constructor <;> rfl
